import Mathlib

/-!
Shallow embedding of `src/rust_src/src/ng_async.rs` from emacs-ng: a typed,
ownership-transferring channel between the Lisp thread and a Rust worker
thread.  Payloads are boxed on the heap and only the box address crosses the
two unidirectional byte streams: fixed-width big-endian bytes host→worker,
ASCII decimal text worker→host.

The model represents the heap of transfer boxes, the pending bytes of each
stream, and the allocator as explicit state; `std::io` write failures are
injected through an explicit `Option IOErrorKind` parameter since the model
has no real file descriptors.
-/

namespace NgAsync

/-- Width in bytes of a pointer, `core::mem::size_of::<*mut String>()` on the
64-bit targets emacs-ng builds for. -/
def ptr_size : Nat := 8

/-- One more than `usize::MAX` on the modelled 64-bit target. -/
def USIZE_MOD : Nat := 2 ^ 64

/-- Largest value of `isize`, the bound enforced by the `usize` to `ptrdiff_t`
conversion `nbytes.try_into()` in `make_return_value`. -/
def ISIZE_MAX : Nat := 2 ^ 63 - 1

/-- Model of `nullptr()`: `std::ptr::null() as *const i32 as usize`, the zero
address used as the close sentinel. -/
def nullptr : Nat := 0

/-- Big-endian byte list of width `k` for a natural number; the low byte is
written last, and bits above `256 ^ k` are dropped exactly as the fixed-width
`to_be_bytes` drops them. -/
def natToBe : Nat → Nat → List Nat
  | 0, _ => []
  | k + 1, n => natToBe k (n / 256) ++ [n % 256]

/-- Model of `usize::to_be_bytes` for the modelled 64-bit word. -/
def to_be_bytes (n : Nat) : List Nat := natToBe ptr_size n

/-- Model of `usize::from_be_bytes`. -/
def from_be_bytes (bs : List Nat) : Nat := bs.foldl (fun acc b => acc * 256 + b) 0

theorem natToBe_length (k : Nat) : ∀ n, (natToBe k n).length = k := by
  induction k with
  | zero => intro n; simp [natToBe]
  | succ k ih => intro n; simp [natToBe, ih]

theorem natToBe_foldl (k : Nat) :
    ∀ n acc, n < 256 ^ k →
      (natToBe k n).foldl (fun acc b => acc * 256 + b) acc = acc * 256 ^ k + n := by
  induction k with
  | zero =>
    intro n acc h
    simp [natToBe]
    omega
  | succ k ih =>
    intro n acc h
    have hdiv : n / 256 < 256 ^ k := by
      have : n < 256 ^ k * 256 := by
        have hp : (256 : Nat) ^ (k + 1) = 256 ^ k * 256 := pow_succ 256 k
        omega
      omega
    simp only [natToBe, List.foldl_append, List.foldl_cons, List.foldl_nil]
    rw [ih (n / 256) acc hdiv]
    have hp : (256 : Nat) ^ (k + 1) = 256 ^ k * 256 := pow_succ 256 k
    rw [hp, ← mul_assoc]
    generalize acc * 256 ^ k = A
    omega

theorem from_be_bytes_to_be_bytes (n : Nat) (h : n < USIZE_MOD) :
    from_be_bytes (to_be_bytes n) = n := by
  have h8 : n < 256 ^ 8 := by
    have : (256 : Nat) ^ 8 = 2 ^ 64 := by norm_num
    simpa [this, USIZE_MOD] using h
  simpa using natToBe_foldl 8 n 0 h8

theorem from_be_bytes_zero : from_be_bytes (to_be_bytes 0) = 0 := by
  decide

/-- Fuel-indexed ASCII rendering of a natural number in decimal; with fuel
above `n` it agrees with `usize::to_string`. -/
def decDigitsAux : Nat → Nat → List Nat
  | 0, _ => []
  | fuel + 1, n => if n < 10 then [48 + n] else decDigitsAux fuel (n / 10) ++ [48 + n % 10]

/-- ASCII byte list of `n.to_string()`, as written by `message_lisp`. -/
def decDigits (n : Nat) : List Nat := decDigitsAux (n + 1) n

theorem decDigitsAux_digits (fuel : Nat) :
    ∀ n, n < fuel → ∀ b ∈ decDigitsAux fuel n, 48 ≤ b ∧ b ≤ 57 := by
  induction fuel with
  | zero => intro n h; omega
  | succ fuel ih =>
    intro n h b hb
    by_cases h10 : n < 10
    · simp [decDigitsAux, h10] at hb
      omega
    · simp only [decDigitsAux, if_neg h10, List.mem_append, List.mem_singleton] at hb
      rcases hb with hb | hb
      · exact ih (n / 10) (by omega) b hb
      · have := Nat.mod_lt n (show 0 < 10 by omega)
        omega

theorem decDigitsAux_ne_nil (fuel n : Nat) : decDigitsAux (fuel + 1) n ≠ [] := by
  unfold decDigitsAux
  split <;> simp

theorem decDigitsAux_foldl (fuel : Nat) :
    ∀ n acc, n < fuel →
      (decDigitsAux fuel n).foldl (fun a b => a * 10 + (b - 48)) acc
        = acc * 10 ^ (decDigitsAux fuel n).length + n := by
  induction fuel with
  | zero => intro n acc h; omega
  | succ fuel ih =>
    intro n acc h
    by_cases h10 : n < 10
    · simp [decDigitsAux, h10]
    · have hdiv : n / 10 < fuel := by
        have : n / 10 < n := Nat.div_lt_self (by omega) (by omega)
        omega
      simp only [decDigitsAux, if_neg h10, List.foldl_append, List.foldl_cons, List.foldl_nil,
        List.length_append, List.length_singleton]
      rw [ih (n / 10) acc hdiv]
      have hp : (10 : Nat) ^ ((decDigitsAux fuel (n / 10)).length + 1)
          = 10 ^ (decDigitsAux fuel (n / 10)).length * 10 :=
        pow_succ 10 _
      rw [hp, ← mul_assoc]
      generalize acc * 10 ^ (decDigitsAux fuel (n / 10)).length = A
      have hm : n % 10 < 10 := Nat.mod_lt n (by omega)
      omega

theorem decDigits_digits (n : Nat) : ∀ b ∈ decDigits n, 48 ≤ b ∧ b ≤ 57 :=
  decDigitsAux_digits (n + 1) n (Nat.lt_succ_self n)

theorem decDigits_ne_nil (n : Nat) : decDigits n ≠ [] := decDigitsAux_ne_nil n n

/-- One byte is an ASCII decimal digit. -/
def isDigitByte (b : Nat) : Bool := 48 ≤ b && b ≤ 57

/-- Value of a most-significant-first ASCII digit list, the accumulator loop
inside `str::parse::<usize>`. -/
def digitsVal (bs : List Nat) : Nat := bs.foldl (fun a b => a * 10 + (b - 48)) 0

/-- Drop a single leading ASCII plus sign, as `usize::from_str` does. -/
def stripPlus (bs : List Nat) : List Nat :=
  match bs with
  | b :: rest => if b = 43 then rest else bs
  | [] => bs

/-- Model of `str::parse::<usize>` applied to the lossily decoded payload
bytes: it succeeds exactly on an optional leading plus sign followed by one or
more ASCII digits whose accumulated value fits in `usize` (bytes outside the
digit range, including everything the lossy UTF-8 decoding turns into
replacement characters, fail the digit test). -/
def parseUsize (bs : List Nat) : Option Nat :=
  let ds := stripPlus bs
  if ds ≠ [] ∧ ds.all isDigitByte = true ∧ digitsVal ds < USIZE_MOD then some (digitsVal ds)
  else none

theorem digitsVal_decDigits (n : Nat) : digitsVal (decDigits n) = n := by
  have h := decDigitsAux_foldl (n + 1) n 0 (Nat.lt_succ_self n)
  simpa [digitsVal, decDigits] using h

theorem stripPlus_decDigits (n : Nat) : stripPlus (decDigits n) = decDigits n := by
  rcases hd : decDigits n with _ | ⟨b, t⟩
  · rfl
  · have hb : 48 ≤ b ∧ b ≤ 57 := by
      apply decDigits_digits n b
      rw [hd]
      exact List.mem_cons_self b t
    simp [stripPlus]
    omega

theorem parseUsize_decDigits (n : Nat) (h : n < USIZE_MOD) :
    parseUsize (decDigits n) = some n := by
  unfold parseUsize
  rw [stripPlus_decDigits]
  rw [if_pos]
  · rw [digitsVal_decDigits]
  · refine ⟨decDigits_ne_nil n, ?_, ?_⟩
    · rw [List.all_eq_true]
      intro b hb
      have := decDigits_digits n b hb
      simp [isDigitByte]
      omega
    · rw [digitsVal_decDigits]
      exact h

/-- The two payload types implementing `PipeData` (`String` and `UserData`).
A String payload is its byte content; a UserData payload is the two-word
descriptor: the optional finalizer code address and the data pointer. -/
inductive PipeValue
  | str (bytes : List Nat)
  | userData (finalizer : Option Nat) (data : Nat)
deriving DecidableEq

/-- The kinds of `std::io::Error` this module distinguishes:
`ConnectionAborted` (the Closed condition) versus everything else. -/
inductive IOErrorKind
  | connectionAborted
  | other
deriving DecidableEq

/-- The transfer-box heap: live boxes created by `Box::new`, as pairs of
address and content. New boxes are prepended; `Box::from_raw` removes the
entry for the given address. -/
abbrev Heap := List (Nat × PipeValue)

def heapLookup (h : Heap) (a : Nat) : Option PipeValue :=
  (h.find? (fun e => e.1 == a)).map (fun e => e.2)

def heapFree (h : Heap) (a : Nat) : Heap := h.eraseP (fun e => e.1 == a)

/-- State of one `EmacsPipe` pair: the transfer boxes currently allocated,
the bytes pending on each unidirectional stream (`toWorker` is the pipe
written by `internal_write` and read by `read_next_ptr`; `toHost` is the pipe
written by `message_lisp` and delivered to the process filter), and the next
address the allocator hands out, the model's stand-in for `Box::into_raw`. -/
structure ChanState where
  heap : Heap
  toWorker : List Nat
  toHost : List Nat
  next : Nat
deriving DecidableEq

/-- Model of `EmacsPipe::internal_write`: write `bytes` on the host→worker
stream (`out_subp`). `werr` injects the possible failure of the underlying
descriptor write; `none` is the successful case, in which the bytes are
appended to the stream. -/
def internal_write (werr : Option IOErrorKind) (st : ChanState) (bytes : List Nat) :
    Except IOErrorKind Unit × ChanState :=
  match werr with
  | none => (Except.ok (), { st with toWorker := st.toWorker ++ bytes })
  | some k => (Except.error k, st)

/-- Model of `EmacsPipe::write_ptr`: the address as fixed-width big-endian
bytes on the host→worker stream. -/
def write_ptr (werr : Option IOErrorKind) (st : ChanState) (a : Nat) :
    Except IOErrorKind Unit × ChanState :=
  internal_write werr st (to_be_bytes a)

/-- Model of `EmacsPipe::message_rust_worker`: box the payload — one fresh
heap cell at address `st.next` — and write that address via `write_ptr`. The
box is allocated before the write, so it exists even if the write fails. -/
def message_rust_worker (werr : Option IOErrorKind) (st : ChanState) (content : PipeValue) :
    Except IOErrorKind Unit × ChanState :=
  let a := st.next
  let st1 : ChanState := { st with heap := (a, content) :: st.heap, next := st.next + 1 }
  write_ptr werr st1 a

/-- Model of `EmacsPipe::message_lisp`: box the payload and write its address
as ASCII decimal text (`bin.to_string().as_bytes()`) on the worker→host
stream (`out_fd`). The box again precedes the write. -/
def message_lisp (werr : Option IOErrorKind) (st : ChanState) (content : PipeValue) :
    Except IOErrorKind Unit × ChanState :=
  let a := st.next
  let st1 : ChanState := { st with heap := (a, content) :: st.heap, next := st.next + 1 }
  match werr with
  | none => (Except.ok (), { st1 with toHost := st1.toHost ++ decDigits a })
  | some k => (Except.error k, st1)

/-- Model of `EmacsPipe::close_stream`: write the zero sentinel, fixed-width
big-endian, on the host→worker stream. -/
def close_stream (werr : Option IOErrorKind) (st : ChanState) :
    Except IOErrorKind Unit × ChanState :=
  internal_write werr st (to_be_bytes nullptr)

/-- The 8-byte buffer after the `f.read` in `read_next_ptr`: the bytes
available on the stream (at most `ptr_size` of them), the remainder keeping
the buffer's zero initialisation — in particular an EOF read leaves it all
zero. -/
def read_buffer (st : ChanState) : List Nat :=
  let taken := st.toWorker.take ptr_size
  taken ++ List.replicate (ptr_size - taken.length) 0

/-- Model of `EmacsPipe::read_next_ptr`: decode the buffer as a fixed-width
big-endian value; the zero sentinel becomes a ConnectionAborted error,
anything else is returned as an address. The read consumes the bytes it
transferred in both cases. -/
def read_next_ptr (st : ChanState) : Except IOErrorKind Nat × ChanState :=
  let raw_value := from_be_bytes (read_buffer st)
  let st1 : ChanState := { st with toWorker := st.toWorker.drop ptr_size }
  if raw_value = nullptr then (Except.error IOErrorKind.connectionAborted, st1)
  else (Except.ok raw_value, st1)

/-- Model of `EmacsPipe::read_pend_message`: on a successful address read,
reconstitute the box at that address (`Box::from_raw`), free it, and hand its
content to the caller. Dereferencing an address with no live box is undefined
behaviour in the source; the model maps it to an error distinct from the
Closed signal. -/
def read_pend_message (st : ChanState) : Except IOErrorKind PipeValue × ChanState :=
  match read_next_ptr st with
  | (Except.error e, st1) => (Except.error e, st1)
  | (Except.ok a, st1) =>
    match heapLookup st1.heap a with
    | some v => (Except.ok v, { st1 with heap := heapFree st1.heap a })
    | none => (Except.error IOErrorKind.other, st1)

theorem to_be_bytes_length (n : Nat) : (to_be_bytes n).length = ptr_size :=
  natToBe_length ptr_size n

/-- C1: for every payload kind (String or UserData) and every value of that
kind, sending with `message_rust_worker` and receiving with
`read_pend_message` on the other endpoint of a quiescent channel yields the
same value; the send allocates exactly one heap box (the heap grows by the
one cell at the fresh address) and the receive frees exactly that box (the
heap returns to its original contents). -/
theorem round_trip (st : ChanState) (v : PipeValue)
    (hq : st.toWorker = []) (h0 : st.next ≠ 0) (hw : st.next < USIZE_MOD) :
    ∃ st1 st2 : ChanState,
      message_rust_worker none st v = (Except.ok (), st1) ∧
      st1.heap = (st.next, v) :: st.heap ∧
      read_pend_message st1 = (Except.ok v, st2) ∧
      st2.heap = st.heap ∧ st2.toWorker = [] := by
  obtain ⟨hp, tw, th, nx⟩ := st
  dsimp only at hq h0 hw
  subst hq
  refine ⟨⟨(nx, v) :: hp, to_be_bytes nx, th, nx + 1⟩, ⟨hp, [], th, nx + 1⟩, ?_, rfl, ?_, rfl, rfl⟩
  · simp [message_rust_worker, write_ptr, internal_write]
  · have hlen : (to_be_bytes nx).length = ptr_size := to_be_bytes_length nx
    have hbuf : read_buffer ⟨(nx, v) :: hp, to_be_bytes nx, th, nx + 1⟩ = to_be_bytes nx := by
      simp [read_buffer, ← hlen, List.take_length]
    have hrnp : read_next_ptr ⟨(nx, v) :: hp, to_be_bytes nx, th, nx + 1⟩
        = (Except.ok nx, ⟨(nx, v) :: hp, [], th, nx + 1⟩) := by
      simp [read_next_ptr, hbuf, from_be_bytes_to_be_bytes nx hw, nullptr, h0, ← hlen,
        List.drop_length]
    simp [read_pend_message, hrnp, heapLookup, heapFree]

theorem round_trip_witness :
    ∃ st1 st2 : ChanState,
      message_rust_worker none ⟨[], [], [], 1⟩ (PipeValue.str [104, 105]) = (Except.ok (), st1) ∧
      st1.heap = (1, PipeValue.str [104, 105]) :: [] ∧
      read_pend_message st1 = (Except.ok (PipeValue.str [104, 105]), st2) ∧
      st2.heap = [] ∧ st2.toWorker = [] :=
  round_trip ⟨[], [], [], 1⟩ (PipeValue.str [104, 105]) rfl (by decide) (by decide)

/-- C3: `read_next_ptr` fails with the ConnectionAborted (Closed) error
exactly when the fixed-width big-endian decoding of the read buffer is the
zero sentinel; an EOF stream, which transfers no bytes and leaves the zeroed
buffer intact, is one such case; and on any non-sentinel address whose box is
live, `read_pend_message` reconstitutes the box, frees it, and hands its
value to the caller. -/
theorem read_closed_iff (st : ChanState) :
    ((read_next_ptr st).1 = Except.error IOErrorKind.connectionAborted ↔
        from_be_bytes (read_buffer st) = nullptr) ∧
    (st.toWorker = [] → (read_next_ptr st).1 = Except.error IOErrorKind.connectionAborted) ∧
    (∀ a v st1, read_next_ptr st = (Except.ok a, st1) → heapLookup st1.heap a = some v →
      read_pend_message st = (Except.ok v, { st1 with heap := heapFree st1.heap a })) := by
  refine ⟨?_, ?_, ?_⟩
  · by_cases h : from_be_bytes (read_buffer st) = nullptr <;> simp [read_next_ptr, h]
  · intro hq
    have hbuf : read_buffer st = List.replicate ptr_size 0 := by
      simp [read_buffer, hq]
    have hz : from_be_bytes (List.replicate ptr_size 0) = 0 := by decide
    unfold read_next_ptr
    rw [hbuf, hz]
    simp [nullptr]
  · intro a v st1 h1 h2
    unfold read_pend_message
    rw [h1]
    simp [h2]

theorem read_closed_iff_witness :
    (read_next_ptr ⟨[], [], [], 5⟩).1 = Except.error IOErrorKind.connectionAborted ∧
    read_pend_message ⟨[(3, PipeValue.userData none 7)], to_be_bytes 3, [], 9⟩
      = (Except.ok (PipeValue.userData none 7), ⟨[], [], [], 9⟩) := by
  constructor
  · exact (read_closed_iff ⟨[], [], [], 5⟩).2.1 rfl
  · exact (read_closed_iff ⟨[(3, PipeValue.userData none 7)], to_be_bytes 3, [], 9⟩).2.2
      3 (PipeValue.userData none 7) ⟨[(3, PipeValue.userData none 7)], [], [], 9⟩
      (by rfl) (by rfl)

/-- C5: wire-format asymmetry. Sending host→worker boxes the payload and
appends exactly the box address as a fixed-width (pointer-size) big-endian
byte sequence to that stream, while sending worker→host boxes the payload and
appends the box address rendered as variable-length ASCII decimal digit
bytes, which parse back to the same address. -/
theorem wire_format_asymmetry (st : ChanState) (v : PipeValue) :
    ((message_rust_worker none st v).2.toWorker = st.toWorker ++ to_be_bytes st.next ∧
      (to_be_bytes st.next).length = ptr_size) ∧
    ((message_lisp none st v).2.toHost = st.toHost ++ decDigits st.next ∧
      (∀ b ∈ decDigits st.next, 48 ≤ b ∧ b ≤ 57) ∧
      (st.next < USIZE_MOD → parseUsize (decDigits st.next) = some st.next)) := by
  refine ⟨⟨?_, to_be_bytes_length _⟩, ⟨?_, decDigits_digits _, parseUsize_decDigits _⟩⟩
  · simp [message_rust_worker, write_ptr, internal_write]
  · simp [message_lisp]

theorem wire_format_asymmetry_witness :
    (message_rust_worker none ⟨[], [], [], 7⟩ (PipeValue.str [])).2.toWorker
        = [] ++ to_be_bytes 7 ∧
    (message_lisp none ⟨[], [], [], 7⟩ (PipeValue.str [])).2.toHost = [] ++ decDigits 7 ∧
    (48 ≤ 55 ∧ 55 ≤ 57) ∧ parseUsize (decDigits 7) = some 7 := by
  have h := wire_format_asymmetry ⟨[], [], [], 7⟩ (PipeValue.str [])
  exact ⟨h.1.1, h.2.1, h.2.2.1 55 (by decide), h.2.2.2 (by decide)⟩

/-- The Lisp objects this module inspects: symbols (by name), strings (by
their UTF-8 encoded byte content), user pointers (data pointer plus optional
finalizer code address), process handles and callable objects (by id). -/
inductive LObj
  | symbol (name : String)
  | lstring (bytes : List Nat)
  | luserPtr (p : Nat) (finalizer : Option Nat)
  | process (id : Nat)
  | subr (id : Nat)
deriving DecidableEq

def Qnil : LObj := LObj.symbol "nil"
def Qstring : LObj := LObj.symbol "string"
def Quser_ptr : LObj := LObj.symbol "user-ptr"
def Qstringp : LObj := LObj.symbol "stringp"
def Quser_ptrp : LObj := LObj.symbol "user-ptrp"
def Qcall : LObj := LObj.symbol "call"
def Qdata : LObj := LObj.symbol "data"
def Qreturn : LObj := LObj.symbol "return"
def QCtype : LObj := LObj.symbol ":type"

/-- The closed registry of payload kinds sent through the data pipe. -/
inductive PipeDataOption
  | STRING
  | USER_DATA
deriving DecidableEq

/-- Model of `LispObject::to_data_option`: recognise the two type-tag
symbols. -/
def to_data_option (o : LObj) : Option PipeDataOption :=
  if o = Qstring then some PipeDataOption.STRING
  else if o = Quser_ptr then some PipeDataOption.USER_DATA
  else none

/-- Model of `LispObject::from_data_option`. -/
def from_data_option : PipeDataOption → LObj
  | PipeDataOption.STRING => Qstring
  | PipeDataOption.USER_DATA => Quser_ptr

/-- Model of `message.is_string()`. -/
def is_string : LObj → Bool
  | LObj.lstring _ => true
  | _ => false

/-- Model of `is_user_ptr` (`Fuser_ptrp`). -/
def is_user_ptr : LObj → Bool
  | LObj.luserPtr _ _ => true
  | _ => false

def exceptOk {ε α : Type} : Except ε α → Bool
  | Except.ok _ => true
  | Except.error _ => false

/-- Result of `internal_send_message`: either a non-local `wrong_type!`
signal — recorded with the predicate symbol, the offending object, and the
channel state and caller-visible message object at the moment of the signal —
or a normal boolean return carrying the final state and the caller's message
object as the call leaves it. -/
inductive SendOutcome
  | signaled (tag : LObj) (obj : LObj) (st : ChanState) (message : LObj)
  | returned (ok : Bool) (st : ChanState) (message : LObj)
deriving DecidableEq

/-- Model of `internal_send_message`. The String arm checks `is_string`
before any encoding or I/O; `encode_string_utf_8` followed by
`String::from_utf8_lossy` is modelled as yielding the string's encoded bytes
(the encoder's output is valid UTF-8, so the lossy decoding is the
identity). The UserData arm checks `is_user_ptr`, copies the two-word
descriptor out of the Lisp user-ptr, nulls the user-ptr's data pointer and
finalizer, and only then performs the send. -/
def internal_send_message (werr : Option IOErrorKind) (st : ChanState)
    (message : LObj) (option : PipeDataOption) : SendOutcome :=
  match option with
  | PipeDataOption.STRING =>
    match message with
    | LObj.lstring bytes =>
      let r := message_rust_worker werr st (PipeValue.str bytes)
      SendOutcome.returned (exceptOk r.1) r.2 message
    | _ => SendOutcome.signaled Qstringp message st message
  | PipeDataOption.USER_DATA =>
    match message with
    | LObj.luserPtr p fin =>
      let ud : PipeValue := PipeValue.userData fin p
      let message1 : LObj := LObj.luserPtr nullptr none
      let r := message_rust_worker werr st ud
      SendOutcome.returned (exceptOk r.1) r.2 message1
    | _ => SendOutcome.signaled Quser_ptrp message st message

/-- C2: a message whose Lisp type does not match the channel's configured
input kind — a non-string on a String-configured channel, or a non-user-ptr
on a UserData-configured channel — makes `internal_send_message` signal a
wrong-type error whose recorded channel state is the unchanged input state:
no bytes are written to either stream and no box is allocated. -/
theorem type_mismatch_rejected (werr : Option IOErrorKind) (st : ChanState) (message : LObj) :
    (is_string message = false →
      internal_send_message werr st message PipeDataOption.STRING
        = SendOutcome.signaled Qstringp message st message) ∧
    (is_user_ptr message = false →
      internal_send_message werr st message PipeDataOption.USER_DATA
        = SendOutcome.signaled Quser_ptrp message st message) := by
  constructor
  · intro h
    cases message <;> simp_all [internal_send_message, is_string]
  · intro h
    cases message <;> simp_all [internal_send_message, is_user_ptr]

theorem type_mismatch_rejected_witness :
    internal_send_message none ⟨[], [], [], 1⟩ (LObj.luserPtr 4 none) PipeDataOption.STRING
        = SendOutcome.signaled Qstringp (LObj.luserPtr 4 none) ⟨[], [], [], 1⟩
            (LObj.luserPtr 4 none) ∧
    internal_send_message none ⟨[], [], [], 1⟩ (LObj.lstring [97]) PipeDataOption.USER_DATA
        = SendOutcome.signaled Quser_ptrp (LObj.lstring [97]) ⟨[], [], [], 1⟩
            (LObj.lstring [97]) :=
  ⟨(type_mismatch_rejected none ⟨[], [], [], 1⟩ (LObj.luserPtr 4 none)).1 (by decide),
    (type_mismatch_rejected none ⟨[], [], [], 1⟩ (LObj.lstring [97])).2 (by decide)⟩

/-- C6: sending a UserData message moves only the two-word descriptor — the
freshly allocated box holds exactly the (finalizer, data pointer) pair, no
payload bytes, and only the box address crosses the stream — and the call
returns with the sender's Lisp user-ptr nulled (data pointer set to the null
address, finalizer cleared), so the box is the sole owner of the resource
after the send. -/
theorem user_data_single_owner (st : ChanState) (p : Nat) (fin : Option Nat) :
    internal_send_message none st (LObj.luserPtr p fin) PipeDataOption.USER_DATA
      = SendOutcome.returned true
          { st with
            heap := (st.next, PipeValue.userData fin p) :: st.heap,
            toWorker := st.toWorker ++ to_be_bytes st.next,
            next := st.next + 1 }
          (LObj.luserPtr nullptr none) := by
  simp [internal_send_message, message_rust_worker, write_ptr, internal_write, exceptOk]

/-- C10: the UserData send is not atomic on error: when the pipe write fails,
`internal_send_message` still returns with the caller's user-ptr already
nulled and the boxed descriptor still allocated — the handle has lost
ownership and the box is not recovered, even though the function returns
`false` and no bytes were written. -/
theorem user_data_send_not_atomic (st : ChanState) (p : Nat) (fin : Option Nat)
    (k : IOErrorKind) :
    internal_send_message (some k) st (LObj.luserPtr p fin) PipeDataOption.USER_DATA
      = SendOutcome.returned false
          { st with
            heap := (st.next, PipeValue.userData fin p) :: st.heap,
            next := st.next + 1 }
          (LObj.luserPtr nullptr none) := by
  simp [internal_send_message, message_rust_worker, write_ptr, internal_write, exceptOk]

/-- Model of `eprint_if_unexpected_error`: the log entries produced for a
terminal error. The expected ConnectionAborted close is deliberately not
logged; everything else is. -/
def eprint_if_unexpected_error (err : IOErrorKind) : List IOErrorKind :=
  if err = IOErrorKind.connectionAborted then [] else [err]

/-- Model of the thread loop spawned by `rust_worker`: receive a request with
`read_pend_message`; on success apply the user handler and send the result
back with `message_lisp` (whose possible write failure is injected through
`sendErr`, indexed by the number of sends so far); on any receive or send
error, log through `eprint_if_unexpected_error` and stop. Returns the final
channel state, the responses sent back in order, and the error log. The
decreasing guard is the model's termination measure: every successful receive
consumes at least one pending byte, so on any reachable state the guard
holds and the unguarded arm is dead. -/
def rust_worker_loop (fnc : PipeValue → PipeValue) (sendErr : Nat → Option IOErrorKind)
    (sends : Nat) (st : ChanState) : ChanState × List PipeValue × List IOErrorKind :=
  match read_pend_message st with
  | (Except.error e, st1) => (st1, [], eprint_if_unexpected_error e)
  | (Except.ok message, st1) =>
    match message_lisp (sendErr sends) st1 (fnc message) with
    | (Except.error e, st2) => (st2, [], eprint_if_unexpected_error e)
    | (Except.ok _, st2) =>
      if hlt : st2.toWorker.length < st.toWorker.length then
        let rest := rust_worker_loop fnc sendErr (sends + 1) st2
        (rest.1, fnc message :: rest.2.1, rest.2.2)
      else (st2, [], [])
termination_by st.toWorker.length
decreasing_by exact hlt

theorem read_next_ptr_sentinel (st : ChanState) (rest : List Nat)
    (h : st.toWorker = to_be_bytes nullptr ++ rest) :
    read_next_ptr st
      = (Except.error IOErrorKind.connectionAborted, { st with toWorker := rest }) := by
  have hlen : (to_be_bytes nullptr).length = ptr_size := to_be_bytes_length nullptr
  have hbuf : read_buffer st = to_be_bytes nullptr := by
    simp [read_buffer, h, List.take_append_eq_append_take, ← hlen, List.take_length]
  have hdrop : st.toWorker.drop ptr_size = rest := by
    simp [h, List.drop_append_eq_append_drop, ← hlen, List.drop_length]
  simp [read_next_ptr, hbuf, from_be_bytes_zero, hdrop, nullptr]

theorem read_next_ptr_addr (st : ChanState) (a : Nat) (rest : List Nat)
    (h : st.toWorker = to_be_bytes a ++ rest) (h0 : a ≠ 0) (hw : a < USIZE_MOD) :
    read_next_ptr st = (Except.ok a, { st with toWorker := rest }) := by
  have hlen : (to_be_bytes a).length = ptr_size := to_be_bytes_length a
  have hbuf : read_buffer st = to_be_bytes a := by
    simp [read_buffer, h, List.take_append_eq_append_take, ← hlen, List.take_length]
  have hdrop : st.toWorker.drop ptr_size = rest := by
    simp [h, List.drop_append_eq_append_drop, ← hlen, List.drop_length]
  simp [read_next_ptr, hbuf, from_be_bytes_to_be_bytes a hw, hdrop, nullptr, h0]

theorem read_pend_message_sentinel (st : ChanState) (rest : List Nat)
    (h : st.toWorker = to_be_bytes nullptr ++ rest) :
    read_pend_message st
      = (Except.error IOErrorKind.connectionAborted, { st with toWorker := rest }) := by
  unfold read_pend_message
  rw [read_next_ptr_sentinel st rest h]

/-- C4: after `close_stream` appends the sentinel to the host→worker stream
(first conjunct), the worker loop's next receive on the closed quiescent
channel returns the Closed (ConnectionAborted) error, and the loop consumes
the sentinel exactly once and exits: it sends no responses and, the Closed
condition being expected, logs nothing (second conjunct). A send failure of
any other kind is logged — exactly one entry — and also terminates the loop
with no recorded responses (third conjunct). -/
theorem close_termination :
    (∀ st : ChanState, close_stream none st
        = (Except.ok (), { st with toWorker := st.toWorker ++ to_be_bytes nullptr })) ∧
    (∀ (st : ChanState) (fnc : PipeValue → PipeValue) (sendErr : Nat → Option IOErrorKind)
        (sends : Nat), st.toWorker = [] →
      (read_pend_message (close_stream none st).2).1
          = Except.error IOErrorKind.connectionAborted ∧
      rust_worker_loop fnc sendErr sends (close_stream none st).2
          = ({ st with toWorker := [] }, [], [])) ∧
    (∀ (st : ChanState) (a : Nat) (v : PipeValue) (k : IOErrorKind)
        (fnc : PipeValue → PipeValue) (sendErr : Nat → Option IOErrorKind) (sends : Nat),
      st.toWorker = to_be_bytes a → a ≠ 0 → a < USIZE_MOD →
      heapLookup st.heap a = some v → sendErr sends = some k →
      k ≠ IOErrorKind.connectionAborted →
      rust_worker_loop fnc sendErr sends st
        = (⟨(st.next, fnc v) :: heapFree st.heap a, [], st.toHost, st.next + 1⟩, [], [k])) := by
  refine ⟨?_, ?_, ?_⟩
  · intro st
    simp [close_stream, internal_write]
  · intro st fnc sendErr sends hq
    have hstc : (close_stream none st).2 = { st with toWorker := to_be_bytes nullptr } := by
      simp [close_stream, internal_write, hq]
    have hr : read_pend_message (close_stream none st).2
        = (Except.error IOErrorKind.connectionAborted, { st with toWorker := [] }) := by
      rw [hstc]
      have := read_pend_message_sentinel { st with toWorker := to_be_bytes nullptr } []
        (by simp)
      simpa using this
    refine ⟨by rw [hr], ?_⟩
    unfold rust_worker_loop
    rw [hr]
    simp [eprint_if_unexpected_error]
  · intro st a v k fnc sendErr sends hq h0 hw hv hk hkind
    have hr : read_pend_message st
        = (Except.ok v, { st with toWorker := [], heap := heapFree st.heap a }) := by
      unfold read_pend_message
      rw [read_next_ptr_addr st a [] (by simp [hq]) h0 hw]
      simp [hv]
    unfold rust_worker_loop
    rw [hr]
    simp [hk, message_lisp, eprint_if_unexpected_error, hkind]

theorem close_termination_witness :
    close_stream none (⟨[], [], [], 1⟩ : ChanState)
        = (Except.ok (), { (⟨[], [], [], 1⟩ : ChanState) with
            toWorker := [] ++ to_be_bytes nullptr }) ∧
    rust_worker_loop (fun x => x) (fun _ => none) 0 (close_stream none ⟨[], [], [], 1⟩).2
        = ({ (⟨[], [], [], 1⟩ : ChanState) with toWorker := [] }, [], []) ∧
    rust_worker_loop (fun x => x) (fun _ => some IOErrorKind.other) 0
        ⟨[(3, PipeValue.str [97])], to_be_bytes 3, [], 9⟩
      = (⟨(9, PipeValue.str [97]) :: heapFree [(3, PipeValue.str [97])] 3, [], [], 9 + 1⟩,
          [], [IOErrorKind.other]) := by
  refine ⟨close_termination.1 ⟨[], [], [], 1⟩, ?_, ?_⟩
  · exact (close_termination.2.1 ⟨[], [], [], 1⟩ (fun x => x) (fun _ => none) 0 rfl).2
  · exact close_termination.2.2 ⟨[(3, PipeValue.str [97])], to_be_bytes 3, [], 9⟩ 3
      (PipeValue.str [97]) IOErrorKind.other (fun x => x) (fun _ => some IOErrorKind.other) 0
      rfl (by decide) (by decide) (by rfl) rfl (by decide)

/-- A process plist, modelled as key/value pairs; `Fplist_get` returns nil
for a missing key. -/
abbrev Plist := List (LObj × LObj)

def plist_get (plist : Plist) (key : LObj) : LObj :=
  match plist.find? (fun e => e.1 == key) with
  | some e => e.2
  | none => Qnil

/-- Model of `make_return_value`: rebuild the Lisp value for the box at
`ptrval` according to the configured output kind, freeing the box. For the
String kind, the box is freed first, then `CString::new` panics on an
interior NUL byte and the `usize` to `ptrdiff_t` conversion panics when the
byte count exceeds `ISIZE_MAX`; a panic is modelled as `Except.error ()`.
Dereferencing an address whose box is dead or holds the other payload kind is
undefined behaviour in the source and is modelled as a panic that leaves the
heap alone. -/
def make_return_value (heap : Heap) (ptrval : Nat) (option : PipeDataOption) :
    Except Unit LObj × Heap :=
  match option with
  | PipeDataOption.STRING =>
    match heapLookup heap ptrval with
    | some (PipeValue.str content) =>
      let heap1 := heapFree heap ptrval
      let nbytes := content.length
      if 0 ∈ content then (Except.error (), heap1)
      else if nbytes ≤ ISIZE_MAX then (Except.ok (LObj.lstring content), heap1)
      else (Except.error (), heap1)
    | _ => (Except.error (), heap)
  | PipeDataOption.USER_DATA =>
    match heapLookup heap ptrval with
    | some (PipeValue.userData fin dataPtr) =>
      (Except.ok (LObj.luserPtr dataPtr fin), heapFree heap ptrval)
    | _ => (Except.error (), heap)

/-- How an `async_handler` invocation ends: a Rust panic (a failed `unwrap`),
a non-local `wrong_type!` signal, or a normal return. -/
inductive HandlerOutcome
  | panicked
  | signaled (tag : LObj) (obj : LObj)
  | handled
deriving DecidableEq

/-- One `Ffuncall` performed by the handler: the callable and its argument
list. -/
structure FnCall where
  fn : LObj
  args : List LObj
deriving DecidableEq

/-- Model of `async_handler`: fetch the registered completion handler from
the process plist, parse the payload bytes as the ASCII decimal address
(`unwrap` panics on a parse failure), look up the configured output kind
under `Qreturn`, materialise the return value, and call the handler once
with the process and that value; a missing or unrecognised output-kind entry
signals a wrong-type error. Returns the outcome, the `Ffuncall`s performed,
and the resulting box heap. -/
def async_handler (plist : Plist) (heap : Heap) (proc : LObj) (data : List Nat) :
    HandlerOutcome × List FnCall × Heap :=
  let orig_handler := plist_get plist Qcall
  match parseUsize data with
  | none => (HandlerOutcome.panicked, [], heap)
  | some bin =>
    let qtype := plist_get plist Qreturn
    match to_data_option qtype with
    | some quoted_type =>
      match make_return_value heap bin quoted_type with
      | (Except.ok retval, heap1) =>
        (HandlerOutcome.handled, [⟨orig_handler, [proc, retval]⟩], heap1)
      | (Except.error _, heap1) => (HandlerOutcome.panicked, [], heap1)
    | none => (HandlerOutcome.signaled Qdata qtype, [], heap)

/-- C7: on a notification whose payload parses to an address, `async_handler`
reconstructs the result value according to the output kind stored under
`Qreturn` in the process plist — a Lisp string of the box's bytes for the
STRING kind, a user-ptr carrying the boxed descriptor for the USER_DATA
kind — frees the box, and invokes the registered completion handler exactly
once with exactly the two arguments process and value; when the output-kind
entry is missing or unrecognised it signals a wrong-type error instead and
performs no call. -/
theorem result_delivery (plist : Plist) (heap : Heap) (proc : LObj) (data : List Nat)
    (a : Nat) (hp : parseUsize data = some a) :
    (∀ bs, plist_get plist Qreturn = Qstring → heapLookup heap a = some (PipeValue.str bs) →
      0 ∉ bs → bs.length ≤ ISIZE_MAX →
      async_handler plist heap proc data
        = (HandlerOutcome.handled, [⟨plist_get plist Qcall, [proc, LObj.lstring bs]⟩],
            heapFree heap a)) ∧
    (∀ p fin, plist_get plist Qreturn = Quser_ptr →
      heapLookup heap a = some (PipeValue.userData fin p) →
      async_handler plist heap proc data
        = (HandlerOutcome.handled, [⟨plist_get plist Qcall, [proc, LObj.luserPtr p fin]⟩],
            heapFree heap a)) ∧
    (to_data_option (plist_get plist Qreturn) = none →
      async_handler plist heap proc data
        = (HandlerOutcome.signaled Qdata (plist_get plist Qreturn), [], heap)) := by
  refine ⟨?_, ?_, ?_⟩
  · intro bs hq hv hnul hlen
    unfold async_handler
    rw [hp]
    dsimp only
    rw [hq]
    simp [to_data_option, make_return_value, hv, hnul, hlen]
  · intro p fin hq hv
    unfold async_handler
    rw [hp]
    dsimp only
    rw [hq]
    simp [to_data_option, Quser_ptr, Qstring, make_return_value, hv]
  · intro hq
    unfold async_handler
    rw [hp]
    dsimp only
    rw [hq]

theorem result_delivery_witness :
    async_handler [(Qcall, LObj.subr 1), (Qreturn, Qstring)] [(5, PipeValue.str [104])]
        (LObj.process 0) [53]
      = (HandlerOutcome.handled,
          [⟨plist_get [(Qcall, LObj.subr 1), (Qreturn, Qstring)] Qcall,
            [LObj.process 0, LObj.lstring [104]]⟩],
          heapFree [(5, PipeValue.str [104])] 5) ∧
    async_handler [(Qcall, LObj.subr 1), (Qreturn, Quser_ptr)]
        [(5, PipeValue.userData (some 2) 11)] (LObj.process 0) [53]
      = (HandlerOutcome.handled,
          [⟨plist_get [(Qcall, LObj.subr 1), (Qreturn, Quser_ptr)] Qcall,
            [LObj.process 0, LObj.luserPtr 11 (some 2)]⟩],
          heapFree [(5, PipeValue.userData (some 2) 11)] 5) ∧
    async_handler [] [] (LObj.process 0) [53]
      = (HandlerOutcome.signaled Qdata (plist_get [] Qreturn), [], []) :=
  ⟨(result_delivery [(Qcall, LObj.subr 1), (Qreturn, Qstring)] [(5, PipeValue.str [104])]
      (LObj.process 0) [53] 5 (by decide)).1 [104] (by decide) (by rfl) (by decide) (by decide),
    (result_delivery [(Qcall, LObj.subr 1), (Qreturn, Quser_ptr)]
      [(5, PipeValue.userData (some 2) 11)] (LObj.process 0) [53] 5 (by decide)).2.1 11 (some 2)
      (by decide) (by rfl),
    (result_delivery [] [] (LObj.process 0) [53] 5 (by decide)).2.2 (by decide)⟩

/-- C8 counterexample: the payload with bytes 48, 55 (the text "07") is not
the digit string `message_lisp` writes for any address — it parses to the
address 7, whose rendering is the single byte 55 — yet `async_handler` does
not panic on it, refuting the claim that the decode path avoids a panic only
on exactly the digits written by `message_lisp`. -/
theorem nonpanic_payload_not_message_lisp_digits :
    parseUsize [48, 55] = some 7 ∧ decDigits 7 = [55] ∧ [48, 55] ≠ decDigits 7 ∧
    (async_handler [(Qreturn, Quser_ptr)] [(7, PipeValue.userData none 5)]
        (LObj.process 0) [48, 55]).1 = HandlerOutcome.handled := by
  refine ⟨?_, ?_, ?_, ?_⟩ <;> decide

/-- C8 (amended): whenever the byte payload fails to parse as a `usize` — it
is not an optional leading plus sign followed by one or more ASCII digits
whose value fits in the word — `async_handler` panics via the `unwrap` on the
parse result rather than returning an error or signaling; every payload
written by `message_lisp` parses back to its address, but the accepted set is
strictly larger than those exact digit strings (leading zeros or a leading
plus sign are also accepted). -/
theorem decode_panic_amended :
    (∀ (plist : Plist) (heap : Heap) (proc : LObj) (data : List Nat),
      parseUsize data = none →
      async_handler plist heap proc data = (HandlerOutcome.panicked, [], heap)) ∧
    (∀ n, n < USIZE_MOD → parseUsize (decDigits n) = some n) := by
  constructor
  · intro plist heap proc data h
    simp [async_handler, h]
  · exact parseUsize_decDigits

theorem decode_panic_amended_witness :
    async_handler [] [] (LObj.process 0) [97] = (HandlerOutcome.panicked, [], []) ∧
    parseUsize (decDigits 3) = some 3 :=
  ⟨decode_panic_amended.1 [] [] (LObj.process 0) [97] (by decide),
    decode_panic_amended.2 3 (by decide)⟩

/-- C9: for a String payload box, `make_return_value` panics exactly when the
content has an interior NUL byte (the `CString::new` unwrap) or its byte
count exceeds the signed host word bound (the `try_into` unwrap); for
NUL-free content of representable length it returns the Lisp string of those
bytes and frees the box. -/
theorem string_return_panics_iff (heap : Heap) (a : Nat) (bs : List Nat)
    (hb : heapLookup heap a = some (PipeValue.str bs)) :
    ((make_return_value heap a PipeDataOption.STRING).1 = Except.error ()
        ↔ (0 ∈ bs ∨ ISIZE_MAX < bs.length)) ∧
    (0 ∉ bs → bs.length ≤ ISIZE_MAX →
      make_return_value heap a PipeDataOption.STRING
        = (Except.ok (LObj.lstring bs), heapFree heap a)) := by
  constructor
  · unfold make_return_value
    rw [hb]
    dsimp only
    by_cases h1 : 0 ∈ bs
    · simp [h1]
    · by_cases h2 : bs.length ≤ ISIZE_MAX
      · simp [h1, h2]
      · simp [h1, h2]
        omega
  · intro h1 h2
    unfold make_return_value
    rw [hb]
    simp [h1, h2]

theorem string_return_panics_iff_witness :
    ((make_return_value [(2, PipeValue.str [104, 0])] 2 PipeDataOption.STRING).1
        = Except.error () ↔ (0 ∈ [104, 0] ∨ ISIZE_MAX < [104, 0].length)) ∧
    make_return_value [(2, PipeValue.str [104])] 2 PipeDataOption.STRING
      = (Except.ok (LObj.lstring [104]), heapFree [(2, PipeValue.str [104])] 2) :=
  ⟨(string_return_panics_iff [(2, PipeValue.str [104, 0])] 2 [104, 0] (by rfl)).1,
    (string_return_panics_iff [(2, PipeValue.str [104])] 2 [104] (by rfl)).2
      (by decide) (by decide)⟩

end NgAsync
